import Mathlib

/-!
Verification of the fluxflow rule engine (Go) against its natural-language
specification.  The Go sources are shallowly embedded: Go's dynamic
`interface{}` payload values become the inductive `Value`; Go machine floats
are modelled as exact rationals (the expression core canonicalizes every
number to a 64-bit float; no claim under study depends on rounding); and
fallible Go functions returning `(T, error)` become `Except String T`.
Stateful code (the `EvalContext` carried through the DFS, the mutable
`Results` map) is embedded by explicit state passing.
-/

namespace FluxFlow

/-- Dynamic payload value (Go `interface{}` as used by the engine): number
(64-bit float, modelled exactly as a rational), string, boolean, nested
mapping, or `nil`.  Go maps are embedded as association lists with unique
keys; membership and lookup semantics agree. -/
inductive Value where
  | num (q : ℚ)
  | str (s : String)
  | bool (b : Bool)
  | map (fields : List (String × Value))
  | null
deriving Repr

/-- `toFloat64` from `internal/condition/operators.go`: coerces a numeric
value to float64.  All Go numeric types (`int`, `int64`, `float64`, …) are
represented by the single `Value.num` constructor. -/
def toFloat64V : Value → Option ℚ
  | .num q => some q
  | _ => none

/-- Is the value a Go `bool` (the `left.(bool)` type assertion in `equal`)? -/
def isBoolV : Value → Bool
  | .bool _ => true
  | _ => false

/-- Model of Go `fmt.Sprintf("%v", x)` for dynamic values.  Strings print
as themselves and booleans as `true`/`false`, exactly as in Go; the
rendering of numbers and maps is a simplification (no claim depends on it). -/
def goV : Value → String
  | .num q => if q.den = 1 then toString q.num else toString q
  | .str s => s
  | .bool b => if b then "true" else "false"
  | .map _ => "map[]"
  | .null => "<nil>"

/-- Model of Go `%q`: the string wrapped in double quotes (escaping of
special characters inside the string is not modelled). -/
def goQuote (s : String) : String := "\"" ++ s ++ "\""

/-! ### ASCII models of the Go `strings`/`unicode` helpers the engine uses
(rule documents and operator keywords are ASCII; definitions are
structurally recursive so that concrete runs reduce inside the kernel). -/

/-- ASCII case-lowering of one character (`unicode.ToLower`). -/
def charToLowerGo (c : Char) : Char :=
  if 'A' ≤ c && c ≤ 'Z' then Char.ofNat (c.toNat + 32) else c

/-- ASCII case-raising of one character (`unicode.ToUpper`). -/
def charToUpperGo (c : Char) : Char :=
  if 'a' ≤ c && c ≤ 'z' then Char.ofNat (c.toNat - 32) else c

/-- ASCII model of `strings.ToLower`. -/
def toLowerGo (s : String) : String := String.mk (s.toList.map charToLowerGo)

/-- ASCII model of `strings.ToUpper`. -/
def toUpperGo (s : String) : String := String.mk (s.toList.map charToUpperGo)

/-- Does `s` start with `pat`? -/
def startsWithGo : List Char → List Char → Bool
  | _, [] => true
  | [], _ :: _ => false
  | c :: s, p :: ps => c == p && startsWithGo s ps

/-- The loop of `strings.ReplaceAll` (fuel-driven; `replaceGo` supplies
fuel that cannot run out). -/
def replaceGoAux (pat rep : List Char) : Nat → List Char → List Char
  | 0, s => s
  | _ + 1, [] => []
  | fuel + 1, c :: rest =>
    if pat.length > 0 && startsWithGo (c :: rest) pat then
      rep ++ replaceGoAux pat rep fuel ((c :: rest).drop pat.length)
    else c :: replaceGoAux pat rep fuel rest

/-- Model of `strings.ReplaceAll` for a non-empty pattern. -/
def replaceGo (s pat rep : String) : String :=
  String.mk (replaceGoAux pat.toList rep.toList (s.toList.length + 1) s.toList)

/-- The accumulator loop of `strings.Split` on a single-character
separator. -/
def splitCharGoAux (sep : Char) : List Char → List Char → List String
  | acc, [] => [String.mk acc.reverse]
  | acc, c :: rest =>
    if c == sep then String.mk acc.reverse :: splitCharGoAux sep [] rest
    else splitCharGoAux sep (c :: acc) rest

/-- Model of `strings.Split` on a single-character separator. -/
def splitCharGo (sep : Char) (s : String) : List String :=
  splitCharGoAux sep [] s.toList

/-- Model of `strings.Join`. -/
def intercalateGo (sep : String) : List String → String
  | [] => ""
  | [x] => x
  | x :: rest => x ++ sep ++ intercalateGo sep rest

/-- `equal` from `internal/condition/operators.go`: numeric types are
compared by value within 1e-9 absolute tolerance; two booleans by identity;
a boolean against a non-boolean, non-numeric value is unequal; otherwise
the `fmt.Sprintf("%v", …)` string representations are compared. -/
def equalV (left right : Value) : Bool :=
  match toFloat64V left, toFloat64V right with
  | some lf, some rf => decide (|lf - rf| < 1 / 1000000000)
  | _, _ =>
    match left with
    | .bool lb =>
      match right with
      | .bool rb => lb == rb
      | _ => false
    | _ => goV left == goV right

/-- `numericCompare` from `internal/condition/operators.go`. -/
def numericCompareV (op : String) (left right : Value) : Except String Bool :=
  match toFloat64V left, toFloat64V right with
  | some lf, some rf =>
    match op with
    | ">" => .ok (decide (lf > rf))
    | ">=" => .ok (decide (lf ≥ rf))
    | "<" => .ok (decide (lf < rf))
    | "<=" => .ok (decide (lf ≤ rf))
    | _ => .ok false
  | _, _ =>
    .error ("operator " ++ op ++ " requires numeric operands")

/-- `contains` from `internal/condition/operators.go`: substring test. -/
def goContains (s sub : String) : Bool :=
  decide (sub.toList.length = 0) ||
    List.any (List.range (s.toList.length - sub.toList.length + 1))
      (fun i => startsWithGo (s.toList.drop i) sub.toList)

/-- `containsOp` from `internal/condition/operators.go`: left must be a
string, right is stringified, substring test. -/
def containsOpV (left right : Value) : Except String Bool :=
  match left with
  | .str ls => .ok (goContains ls (goV right))
  | _ => .error "contains: left operand must be a string"

mutual

/-- One step of the Pike-style matcher used to model Go `regexp`:
does the pattern match a prefix of the text?  Supported fragment:
literal characters, `.`, postfix `*`, and the `$` anchor. -/
def reMatchHere : List Char → List Char → Bool
  | [], _ => true
  | ['$'], [] => true
  | c :: '*' :: p, t => reMatchStar c p t
  | _ :: _, [] => false
  | c :: p, x :: t => (c == '.' || c == x) && reMatchHere p t
termination_by p t => (t.length, 2 * p.length)

/-- Kleene-star step of the matcher: try zero or more copies of `c`. -/
def reMatchStar (c : Char) (p : List Char) (t : List Char) : Bool :=
  reMatchHere p t ||
    (match t with
     | [] => false
     | x :: t' => (c == '.' || c == x) && reMatchStar c p t')
termination_by (t.length, 2 * p.length + 1)

end

/-- Unanchored search, as Go `regexp.MatchString`: a leading `^` anchors the
pattern, otherwise the pattern may match at any position of the text. -/
def reSearch (p t : List Char) : Bool :=
  match p with
  | '^' :: p' => reMatchHere p' t
  | _ =>
    reMatchHere p t ||
      (match t with
       | [] => false
       | _ :: t' => reSearch p t')
termination_by t.length

/-- Model of Go `regexp.Compile` validity for the supported fragment:
a repetition operator with no preceding atom is a compile error, and
syntax outside the fragment (groups, classes, escapes, other repetition
operators) is conservatively treated as a compile error.  None of the
claims under study exercises regular expressions. -/
def reCompileOk (p : List Char) : Bool :=
  go p true
where go : List Char → Bool → Bool
  | [], _ => true
  | c :: rest, afterAtom =>
    if c == '*' then afterAtom && go rest false
    else if c == '(' || c == ')' || c == '[' || c == ']' ||
            c == '{' || c == '}' || c == '+' || c == '?' ||
            c == '|' || c == '\\' then false
    else if c == '^' || c == '$' then go rest false
    else go rest true

/-- `matchesOp` from `internal/condition/operators.go`: both operands must
be strings; the right one is compiled as a regular expression. -/
def matchesOpV (left right : Value) : Except String Bool :=
  match left with
  | .str ls =>
    match right with
    | .str pattern =>
      if reCompileOk pattern.toList then
        .ok (reSearch pattern.toList ls.toList)
      else
        .error ("matches: invalid regex " ++ goQuote pattern)
    | _ => .error "matches: right operand must be a string pattern"
  | _ => .error "matches: left operand must be a string"

/-- `compare` from `internal/condition/operators.go`: dispatch on the
comparison operator.  Arithmetic operators (`*`, `/`, `+`, `-`) fall into
the default branch and are an "unknown operator" error here; they are
handled only by the formula evaluator. -/
def compareV (op : String) (left right : Value) : Except String Bool :=
  match op with
  | "==" => .ok (equalV left right)
  | "!=" => .ok (!equalV left right)
  | ">" | ">=" | "<" | "<=" => numericCompareV op left right
  | "contains" => containsOpV left right
  | "matches" => matchesOpV left right
  | _ => .error ("unknown operator: " ++ op)

/-! ## Expression AST (`internal/condition/expression.go`) -/

/-- Operand of a comparison: a pre-parsed literal or a dot-separated field
path (`FieldOperand.Path`, e.g. `["payload", "amount"]`). -/
inductive Operand where
  | literal (v : Value)
  | field (path : List String)
deriving Repr

/-- Expression AST: `BinaryExpr` (AND/OR), `NotExpr`, and `ComparisonExpr`
(`<operand> <operator> <operand>`); operators are the Go strings. -/
inductive Expr where
  | binary (op : String) (left right : Expr)
  | not (e : Expr)
  | comparison (left : Operand) (op : String) (right : Operand)
deriving Repr

/-! ## AST evaluation (`internal/condition/evaluator.go`)

Go's `condition.EvalContext` is an interface exposing
`Resolve(path) (interface{}, bool)`; an implementation may carry state
(the spec's "observing resolver").  The embedding therefore threads an
explicit resolver state `σ` through evaluation; the engine's own resolver
over an event is the stateless instantiation further below. -/

/-- A resolver with internal state `σ`: `resolve` returns the value (with
presence encoded as `Option`) and the successor state. -/
structure ResolverS (σ : Type) where
  resolve : σ → List String → Option Value × σ

/-- `resolveOperand`: a literal yields its stored value; a field path is
resolved against the context and is an error when absent. -/
def resolveOperandS {σ : Type} (r : ResolverS σ) (o : Operand) (s : σ) :
    Except String Value × σ :=
  match o with
  | .literal v => (.ok v, s)
  | .field path =>
    match r.resolve s path with
    | (some v, s') => (.ok v, s')
    | (none, s') =>
      (.error ("field " ++ goQuote (intercalateGo "." path) ++ " not found"), s')

/-- `evalComparison`: resolve both operands, then apply the operator. -/
def evalComparisonS {σ : Type} (r : ResolverS σ) (l : Operand) (op : String)
    (rt : Operand) (s : σ) : Except String Bool × σ :=
  match resolveOperandS r l s with
  | (.error msg, s') => (.error msg, s')
  | (.ok lv, s') =>
    match resolveOperandS r rt s' with
    | (.error msg, s'') => (.error msg, s'')
    | (.ok rv, s'') => (compareV op lv rv, s'')

/-- `condition.Evaluate`: walks the AST and returns true/false or an error,
threading the resolver state.  The body of Go's `evalBinary` (evaluate the
left operand first; `AND` short-circuits to false on a false left operand,
`OR` short-circuits to true on a true one) is inlined in the `binary` case;
`evalBinaryS` below restores the source's function boundary. -/
def evaluateS {σ : Type} (r : ResolverS σ) : Expr → σ → Except String Bool × σ
  | .binary op l rt, s =>
    (match evaluateS r l s with
     | (.error msg, s') => (.error msg, s')
     | (.ok left, s') =>
       match toUpperGo op with
       | "AND" => if !left then (.ok false, s') else evaluateS r rt s'
       | "OR" => if left then (.ok true, s') else evaluateS r rt s'
       | _ => (.error ("unknown binary op " ++ goQuote op), s'))
  | .not e, s =>
    (match evaluateS r e s with
     | (.error msg, s') => (.error msg, s')
     | (.ok v, s') => (.ok !v, s'))
  | .comparison l op rt, s => evalComparisonS r l op rt s

/-- `evalBinary` from `internal/condition/evaluator.go`, as a standalone
function (it recursively calls `condition.Evaluate` on both operands). -/
def evalBinaryS {σ : Type} (r : ResolverS σ) (op : String) (l rt : Expr) (s : σ) :
    Except String Bool × σ :=
  match evaluateS r l s with
  | (.error msg, s') => (.error msg, s')
  | (.ok left, s') =>
    match toUpperGo op with
    | "AND" => if !left then (.ok false, s') else evaluateS r rt s'
    | "OR" => if left then (.ok true, s') else evaluateS r rt s'
    | _ => (.error ("unknown binary op " ++ goQuote op), s')

/-! ## Events (`internal/event/event.go`) and the field resolver
(`dag.EvalContext.Resolve` in `internal/dag/node.go`) -/

/-- The input record.  `payload` and `meta` are `Option` because Go
distinguishes a nil map from an empty one; the timestamps (`occurred_at`,
`received_at`) are wall-clock data outside the model. -/
structure Event where
  id : String
  type : String
  source : String
  actorID : String
  payload : Option (List (String × Value))
  meta : Option (List (String × String))
deriving Repr

/-- `resolveMap`: walk nested mappings; absent if any key is missing or an
intermediate value is not a mapping. -/
def resolveMap (m : List (String × Value)) : List String → Option Value
  | [] => none
  | k :: rest =>
    match m.lookup k with
    | none => none
    | some val =>
      match rest with
      | [] => some val
      | _ =>
        match val with
        | .map sub => resolveMap sub rest
        | _ => none

/-- `EvalContext.Resolve` from `internal/dag/node.go`: dot-joined paths
rooted at `payload`, `meta`, or `event` (`type`/`source`/`actor_id`/`id`);
any other root is absent. -/
def ctxResolve (ev : Event) : List String → Option Value
  | [] => none
  | root :: rest =>
    if root = "payload" then
      match ev.payload with
      | none => none
      | some p => resolveMap p rest
    else if root = "meta" then
      match ev.meta with
      | none => none
      | some m => resolveMap (m.map (fun kv => (kv.1, Value.str kv.2))) rest
    else if root = "event" then
      match rest with
      | ["type"] => some (.str ev.type)
      | ["source"] => some (.str ev.source)
      | ["actor_id"] => some (.str ev.actorID)
      | ["id"] => some (.str ev.id)
      | _ => none
    else none

/-- The engine's event resolver as a (stateless) `ResolverS`
instantiation. -/
def evResolver (ev : Event) : ResolverS Unit :=
  ⟨fun s p => (ctxResolve ev p, s)⟩

/-! ## DAG nodes and graph (`internal/dag/node.go`, `internal/dag/graph.go`) -/

/-- Per-event evaluation context (`dag.EvalContext`): the event, the
accumulator of action outputs (`Results`, nil-able in Go), and the list of
non-fatal errors collected during DFS. -/
structure EvalCtx where
  event : Event
  results : Option (List (String × Value))
  errors : List String
deriving Repr

/-- DAG node: `ScenarioNode` (with its lowercased accepted event-type and
source sets, stored here as lists; emptiness and membership agree with the
Go string sets), `ConditionNode` (pre-compiled AST), or `ActionNode`. -/
inductive Node where
  | scenario (id : String) (eventTypes sources : List String)
  | condition (id : String) (expr : Expr)
  | action (id : String) (actionType : String) (params : List (String × Value))
deriving Repr

/-- `Node.ID()`. -/
def Node.nodeID : Node → String
  | .scenario id _ _ => id
  | .condition id _ => id
  | .action id _ _ => id

/-- `NewScenarioNode`: normalizes (lowercases) the accepted event types and
sources at construction time. -/
def newScenarioNode (id : String) (eventTypes sources : List String) : Node :=
  .scenario id (eventTypes.map toLowerGo) (sources.map toLowerGo)

/-- `condition.Evaluate` run against the engine's event resolver (the
`dag.EvalContext` implementation of `condition.EvalContext`, which reads
only the event). -/
def condEvaluate (ev : Event) (e : Expr) : Except String Bool :=
  (evaluateS (evResolver ev) e ()).1

/-- `Node.Evaluate`: a scenario passes iff the (lowercased) event type is
accepted and the source set is empty or contains the (lowercased) event
source; a condition runs its compiled AST; an action returns true
unconditionally (after the nil-results guard). -/
def nodeEvaluate (ctx : EvalCtx) : Node → Except String Bool
  | .scenario _ eventTypes sources =>
    if !(eventTypes.contains (toLowerGo ctx.event.type)) then .ok false
    else if sources.length > 0 && !(sources.contains (toLowerGo ctx.event.source)) then
      .ok false
    else .ok true
  | .condition _ e => condEvaluate ctx.event e
  | .action _ _ _ =>
    match ctx.results with
    | none => .error "nil results map"
    | some _ => .ok true

/-- The immutable graph: node registry, parent→child edges (in insertion
order, so per-parent child order is document order), and the scenario
roots in document order. -/
structure Graph where
  nodes : List (String × Node)
  edges : List (String × Node)
  roots : List Node
deriving Repr

/-- `NewGraph`. -/
def newGraph : Graph := ⟨[], [], []⟩

/-- `Graph.AddNode`: register by id; scenario nodes are also appended to
the roots.  (Go overwrites on duplicate id; ids are pre-validated unique.) -/
def Graph.addNode (g : Graph) (n : Node) : Graph :=
  { g with
    nodes := g.nodes ++ [(n.nodeID, n)]
    roots := match n with
             | .scenario _ _ _ => g.roots ++ [n]
             | _ => g.roots }

/-- `Graph.AddEdge`. -/
def Graph.addEdge (g : Graph) (parentID : String) (child : Node) : Graph :=
  { g with edges := g.edges ++ [(parentID, child)] }

/-- `Graph.Children`: the direct successors of a node, in insertion order. -/
def Graph.childrenOf (g : Graph) (id : String) : List Node :=
  (g.edges.filter (fun e => e.1 == id)).map (fun e => e.2)

/-- An `ActionMatch` recorded during DFS traversal. -/
structure ActionMatch where
  scenarioID : String
  node : Node
deriving Repr

/-- Append a non-fatal error to the context. -/
def EvalCtx.addErr (ctx : EvalCtx) (e : String) : EvalCtx :=
  { ctx with errors := ctx.errors ++ [e] }

/-- The loop body of `dfs` over the ordered children of the current
parent, with the recursive `dfs` entry point abstracted as the parameter
`dfsF` so that the recursion is structurally evident: on an evaluation
error, record it and skip the branch (fail-open); on false, prune; an
action child is recorded (tagged with the scenario id) and not descended
into; a non-action child is descended into via `dfsF`, and an error
returned by that recursive call aborts the remaining children, keeping
the results accumulated so far. -/
def dfsLoop (g : Graph)
    (dfsF : EvalCtx → String → String →
      List ActionMatch × EvalCtx × Option String)
    (ctx : EvalCtx) (scenarioID : String) :
    List Node → List ActionMatch × EvalCtx × Option String
  | [] => ([], ctx, none)
  | child :: rest =>
    match nodeEvaluate ctx child with
    | .error e =>
      dfsLoop g dfsF (ctx.addErr ("node " ++ child.nodeID ++ ": " ++ e))
        scenarioID rest
    | .ok false => dfsLoop g dfsF ctx scenarioID rest
    | .ok true =>
      match child with
      | .action id ty ps =>
        let r := dfsLoop g dfsF ctx scenarioID rest
        (⟨scenarioID, .action id ty ps⟩ :: r.1, r.2.1, r.2.2)
      | .scenario id ets ss =>
        let d := dfsF ctx id scenarioID
        match d.2.2 with
        | some e => ([], d.2.1, some e)
        | none =>
          let r := dfsLoop g dfsF d.2.1 scenarioID rest
          (d.1 ++ r.1, r.2.1, r.2.2)
      | .condition id ex =>
        let d := dfsF ctx id scenarioID
        match d.2.2 with
        | some e => ([], d.2.1, some e)
        | none =>
          let r := dfsLoop g dfsF d.2.1 scenarioID rest
          (d.1 ++ r.1, r.2.1, r.2.2)

/-- `dfs` from `internal/dag/evaluator.go`: depth-first traversal with
early branch pruning.  Go's recursion is unbounded (builder output is
acyclic, with depth at most the edge count); the embedding makes the
recursion structural with a fuel parameter, and `evaluate` below supplies
fuel that can never run out on builder-produced graphs. -/
def dfs (g : Graph) : Nat → EvalCtx → String → String →
    List ActionMatch × EvalCtx × Option String
  | 0, ctx, _, _ => ([], ctx, some "recursion limit exceeded")
  | fuel + 1, ctx, parentID, scenarioID =>
    dfsLoop g (dfs g fuel) ctx scenarioID (g.childrenOf parentID)

/-- Result triple of `dag.Evaluate`: matched actions (outer order is
scenario document order, inner order child document order), matched
scenario ids, and the first recorded evaluation error, if any. -/
structure EvalOutput where
  matchedActions : List ActionMatch
  scenariosMatched : List String
  error : Option String
deriving Repr

/-- The loop of `dag.Evaluate` over the scenario roots: a failing or
erroring root is skipped; a passing root is DFS-traversed, and the
scenario id is recorded only when the traversal reached at least one
action. -/
def evalRoots (g : Graph) (fuel : Nat) :
    List Node → EvalCtx → List ActionMatch × List String × EvalCtx
  | [], ctx => ([], [], ctx)
  | root :: rest, ctx =>
    match nodeEvaluate ctx root with
    | .error e =>
      evalRoots g fuel rest (ctx.addErr ("scenario " ++ root.nodeID ++ ": " ++ e))
    | .ok false => evalRoots g fuel rest ctx
    | .ok true =>
      let d := dfs g fuel ctx root.nodeID root.nodeID
      match d.2.2 with
      | some e => evalRoots g fuel rest (d.2.1.addErr e)
      | none =>
        let r := evalRoots g fuel rest d.2.1
        if d.1.length > 0 then (d.1 ++ r.1, root.nodeID :: r.2.1, r.2.2)
        else r

/-- `dag.Evaluate`: run the DFS over the graph for the given event; the
first error in the per-event error list (if any) is surfaced as the third
return value.  The fuel `g.edges.length + 1` strictly exceeds the depth of
any acyclic graph, so it never runs out on builder output. -/
def evaluate (g : Graph) (ev : Event) : EvalOutput :=
  let r := evalRoots g (g.edges.length + 1) g.roots ⟨ev, some [], []⟩
  ⟨r.1, r.2.1, r.2.2.errors.head?⟩

/-! ## Tokenizer (`internal/condition/expression.go`)

The scanner walks bytes and classifies them with `unicode.IsSpace`,
`unicode.IsDigit`, `unicode.IsLetter`; rule expressions are ASCII, and the
character classes below model the ASCII behaviour of those predicates. -/

/-- ASCII model of `unicode.IsSpace`. -/
def goIsSpace (c : Char) : Bool :=
  c == ' ' || c == '\t' || c == '\n' || c == '\r' || c == '\x0b' || c == '\x0c'

/-- ASCII model of `unicode.IsDigit`. -/
def goIsDigit (c : Char) : Bool := '0' ≤ c && c ≤ '9'

/-- ASCII model of `unicode.IsLetter`. -/
def goIsLetter (c : Char) : Bool :=
  ('a' ≤ c && c ≤ 'z') || ('A' ≤ c && c ≤ 'Z')

/-- Token kinds of the scanner. -/
inductive TokenKind where
  | word | op | strTok | number | boolLit | lparen | rparen | eof
deriving Repr, DecidableEq

/-- A scanned token. -/
structure Token where
  kind : TokenKind
  val : String
deriving Repr, DecidableEq

/-- Model of Go `%q` applied to a character (single quotes). -/
def goQuoteChar (c : Char) : String :=
  "\x27" ++ String.singleton c ++ "\x27"

/-- Scan the body of a quoted string literal delimited by `quote`: a
backslash skips the following character; returns the raw body and the
remainder after the closing quote, or `none` when unterminated. -/
def scanStrBody (quote : Char) : List Char → Option (List Char × List Char)
  | [] => none
  | ['\\'] => none
  | '\\' :: d :: rest =>
    (scanStrBody quote rest).map (fun p => ('\\' :: d :: p.1, p.2))
  | c :: rest =>
    if c == quote then some ([], rest)
    else (scanStrBody quote rest).map (fun p => (c :: p.1, p.2))

/-- The three sequential `strings.ReplaceAll` unescapes applied to a string
literal's body (in the source's order). -/
def unescapeGo (s : String) : String :=
  replaceGo (replaceGo (replaceGo s "\\\"" "\"") "\\\x27" "\x27") "\\\\" "\\"

/-- The scanner loop.  `fuel` makes the iteration well-founded; `tokenize`
supplies fuel that cannot run out (every iteration consumes at least one
character).  `i` is the byte position used in error messages. -/
def tokenizeGo : Nat → Nat → List Char → Except String (List Token)
  | 0, _, _ => .error "tokenizer out of fuel"
  | _ + 1, _, [] => .ok [⟨.eof, ""⟩]
  | fuel + 1, i, c :: rest =>
    if goIsSpace c then tokenizeGo fuel (i + 1) rest
    else if c == '(' then
      (tokenizeGo fuel (i + 1) rest).map (⟨.lparen, "("⟩ :: ·)
    else if c == ')' then
      (tokenizeGo fuel (i + 1) rest).map (⟨.rparen, ")"⟩ :: ·)
    else if c == '=' || c == '!' || c == '<' || c == '>' then
      match rest with
      | '=' :: rest2 =>
        (tokenizeGo fuel (i + 2) rest2).map
          (⟨.op, String.singleton c ++ "="⟩ :: ·)
      | _ =>
        (tokenizeGo fuel (i + 1) rest).map (⟨.op, String.singleton c⟩ :: ·)
    else if c == '*' || c == '/' || c == '+' then
      (tokenizeGo fuel (i + 1) rest).map (⟨.op, String.singleton c⟩ :: ·)
    else if c == '-' && !(rest.headD ' ' |> goIsDigit) then
      (tokenizeGo fuel (i + 1) rest).map (⟨.op, "-"⟩ :: ·)
    else if c == '"' || c == '\x27' then
      match scanStrBody c rest with
      | none => .error ("unterminated string starting at position " ++ toString i)
      | some (body, rest2) =>
        (tokenizeGo fuel (i + body.length + 2) rest2).map
          (⟨.strTok, unescapeGo (String.mk body)⟩ :: ·)
    else if goIsDigit c || (c == '-' && (rest.headD ' ' |> goIsDigit)) then
      let digits := rest.takeWhile (fun d => goIsDigit d || d == '.')
      let tokVal := String.mk (c :: digits)
      (tokenizeGo fuel (i + tokVal.length) (rest.drop digits.length)).map
        (⟨.number, tokVal⟩ :: ·)
    else if goIsLetter c || c == '_' then
      let tail := rest.takeWhile
        (fun d => goIsLetter d || goIsDigit d || d == '_' || d == '.')
      let word := String.mk (c :: tail)
      let tok : Token :=
        if toLowerGo word == "true" || toLowerGo word == "false" then
          ⟨.boolLit, toLowerGo word⟩
        else ⟨.word, word⟩
      (tokenizeGo fuel (i + word.length) (rest.drop tail.length)).map (tok :: ·)
    else .error ("unexpected character " ++ goQuoteChar c ++ " at position " ++
      toString i)

/-- `tokenize`: single-pass scan producing tokens terminated by the
end-of-input sentinel. -/
def tokenize (s : String) : Except String (List Token) :=
  tokenizeGo (s.toList.length + 1) 0 s.toList

/-! ## Parser (`internal/condition/expression.go`) -/

/-- Digit-string to natural number (`none` on a non-digit or empty input is
handled by the callers). -/
def digitsToNat (cs : List Char) : Nat :=
  cs.foldl (fun acc c => acc * 10 + (c.toNat - '0'.toNat)) 0

/-- Model of `strconv.ParseInt(s, 10, 64)` (overflow not modelled). -/
def goParseInt (s : String) : Option Int :=
  let (sign, body) : Int × List Char :=
    match s.toList with
    | '-' :: rest => (-1, rest)
    | l => (1, l)
  if body.length > 0 && body.all goIsDigit then
    some (sign * (digitsToNat body : Int))
  else none

/-- Model of `strconv.ParseFloat(s, 64)` for tokens made of an optional
leading minus, digits and dots (the only shapes the scanner produces);
the value is exact since the embedding works in ℚ. -/
def goParseFloat (s : String) : Option ℚ :=
  let (sign, body) : ℚ × String :=
    match s.toList with
    | '-' :: rest => (-1, String.mk rest)
    | _ => (1, s)
  match splitCharGo '.' body with
  | [ip, fp] =>
    if (ip.toList.all goIsDigit && fp.toList.all goIsDigit) &&
        !(ip == "" && fp == "") then
      some (sign * ((digitsToNat ip.toList : ℚ) +
        (digitsToNat fp.toList : ℚ) / (10 : ℚ) ^ fp.toList.length))
    else none
  | [ip] =>
    if ip.toList.length > 0 && ip.toList.all goIsDigit then
      some (sign * (digitsToNat ip.toList : ℚ))
    else none
  | _ => none

/-- `parser.peek` (the token list always ends with the EOF sentinel). -/
def peekTok (ts : List Token) : Token := ts.headD ⟨.eof, ""⟩

/-- `parseOperand`: string, number (dot ⇒ float, else integer, both
normalized to the numeric value type), boolean, or a field path split on
dots. -/
def parseOperandT (ts : List Token) : Except String (Operand × List Token) :=
  let t := peekTok ts
  match t.kind with
  | .strTok => .ok (.literal (.str t.val), ts.drop 1)
  | .number =>
    if t.val.toList.contains '.' then
      match goParseFloat t.val with
      | some q => .ok (.literal (.num q), ts.drop 1)
      | none => .error ("invalid number " ++ goQuote t.val)
    else
      match goParseInt t.val with
      | some n => .ok (.literal (.num (n : ℚ)), ts.drop 1)
      | none => .error ("invalid integer " ++ goQuote t.val)
  | .boolLit => .ok (.literal (.bool (t.val == "true")), ts.drop 1)
  | .word => .ok (.field (splitCharGo '.' t.val), ts.drop 1)
  | _ => .error ("expected operand, got " ++ goQuote t.val)

/-- `parseComparison`: `operand operator operand`; the words `contains`
and `matches` (case-insensitive) become operator keywords here. -/
def parseComparisonT (ts : List Token) : Except String (Expr × List Token) := do
  let (left, ts₁) ← parseOperandT ts
  let t := peekTok ts₁
  let (op, ts₂) ←
    if t.kind = .op then pure (t.val, ts₁.drop 1)
    else if t.kind = .word && toLowerGo t.val == "contains" then
      pure ("contains", ts₁.drop 1)
    else if t.kind = .word && toLowerGo t.val == "matches" then
      pure ("matches", ts₁.drop 1)
    else .error ("expected comparison operator, got " ++ goQuote t.val)
  let (right, ts₃) ← parseOperandT ts₂
  .ok (.comparison left op right, ts₃)

mutual

/-- `parseOr`: `and_expr ( "OR" and_expr )*`, left-associative.  The
recursive descent is made well-founded with fuel; `ParseE` supplies fuel
that cannot run out (every recursive call follows the consumption of at
least one token). -/
def parseOrT : Nat → List Token → Except String (Expr × List Token)
  | 0, _ => .error "parser out of fuel"
  | fuel + 1, ts => do
    let (left, ts₁) ← parseAndT fuel ts
    parseOrRest fuel left ts₁

/-- The `( "OR" and_expr )*` loop of `parseOr`. -/
def parseOrRest : Nat → Expr → List Token → Except String (Expr × List Token)
  | 0, _, _ => .error "parser out of fuel"
  | fuel + 1, left, ts =>
    let t := peekTok ts
    if t.kind = .word && toUpperGo t.val == "OR" then do
      let (right, ts₁) ← parseAndT fuel (ts.drop 1)
      parseOrRest fuel (.binary "OR" left right) ts₁
    else .ok (left, ts)

/-- `parseAnd`: `not_expr ( "AND" not_expr )*`, left-associative. -/
def parseAndT : Nat → List Token → Except String (Expr × List Token)
  | 0, _ => .error "parser out of fuel"
  | fuel + 1, ts => do
    let (left, ts₁) ← parseNotT fuel ts
    parseAndRest fuel left ts₁

/-- The `( "AND" not_expr )*` loop of `parseAnd`. -/
def parseAndRest : Nat → Expr → List Token → Except String (Expr × List Token)
  | 0, _, _ => .error "parser out of fuel"
  | fuel + 1, left, ts =>
    let t := peekTok ts
    if t.kind = .word && toUpperGo t.val == "AND" then do
      let (right, ts₁) ← parseNotT fuel (ts.drop 1)
      parseAndRest fuel (.binary "AND" left right) ts₁
    else .ok (left, ts)

/-- `parseNot`: `"NOT" not_expr | "(" or_expr ")" | comparison`. -/
def parseNotT : Nat → List Token → Except String (Expr × List Token)
  | 0, _ => .error "parser out of fuel"
  | fuel + 1, ts =>
    let t := peekTok ts
    if t.kind = .word && toUpperGo t.val == "NOT" then do
      let (inner, ts₁) ← parseNotT fuel (ts.drop 1)
      .ok (.not inner, ts₁)
    else if t.kind = .lparen then do
      let (inner, ts₁) ← parseOrT fuel (ts.drop 1)
      let t₁ := peekTok ts₁
      if t₁.kind = .rparen && t₁.val == ")" then .ok (inner, ts₁.drop 1)
      else .error ("expected " ++ goQuote ")" ++ " but got " ++ goQuote t₁.val)
    else parseComparisonT ts

end

/-- `condition.Parse`: tokenize, parse an `or` expression, and reject
trailing tokens. -/
def ParseE (s : String) : Except String Expr := do
  let tokens ← tokenize s
  let (node, rest) ← parseOrT (tokens.length + 1) tokens
  if (peekTok rest).kind = .eof then .ok node
  else .error ("unexpected token " ++ goQuote (peekTok rest).val ++
    " after expression")

/-! ## Action contract and registry (`internal/action`) -/

/-- `action.ActionResult`. -/
structure ActionResult where
  actionID : String
  type : String
  success : Bool
  message : String
deriving Repr, DecidableEq

/-- The executors of this repository; only the reference points-awarding
action (`internal/action/points`) is registered by `cmd/server/main.go`. -/
inductive Executor where
  | rewardPoints
deriving Repr, DecidableEq

/-- The registry's type-key-to-executor mapping (frozen after startup). -/
def Registry := List (String × Executor)

/-- `Registry.Get`. -/
def registryGet (reg : Registry) (actionType : String) : Except String Executor :=
  match List.lookup actionType reg with
  | some e => .ok e
  | none => .error ("no executor registered for action type " ++ goQuote actionType)

/-- The registry assembled at startup by `cmd/server/main.go`. -/
def stdRegistry : Registry := [("reward_points", .rewardPoints)]

/-! ## Reference action: points award (`internal/action/points`) -/

/-- Lookup of a string-typed param (`params[k].(string)`, the two-valued
type assertion: `none` when the key is absent or the value not a string). -/
def getStr (params : List (String × Value)) (k : String) : Option String :=
  match List.lookup k params with
  | some (.str s) => some s
  | _ => none

/-- `capitalize` from the points action: Go subtracts 32 from the first
byte (correct for lowercase ASCII, the validated operation names). -/
def capitalizeGo (s : String) : String :=
  match s.toList with
  | [] => s
  | c :: rest => String.mk (Char.ofNat (c.toNat - 32) :: rest)

/-- `math.Round`: round half away from zero. -/
def goRound (q : ℚ) : ℚ :=
  if q < 0 then -((⌊-q + 1 / 2⌋ : ℤ) : ℚ) else ((⌊q + 1 / 2⌋ : ℤ) : ℚ)

/-- Model of Go `fmt.Sprintf("%%.0f", x)`: round to the nearest integer,
ties to even, and print in decimal. -/
def fmtF0 (q : ℚ) : String :=
  let fl : ℤ := ⌊q⌋
  let r : ℚ := q - (fl : ℚ)
  let n : ℤ :=
    if r < 1 / 2 then fl
    else if r > 1 / 2 then fl + 1
    else if fl % 2 = 0 then fl else fl + 1
  toString n

/-- `RewardPointsAction.Validate`: `operation` must be `award` or `deduct`
and one of `points`/`points_formula` must be present.  Returns the error
message, or `none` for a nil error. -/
def rewardPointsValidate (params : List (String × Value)) : Option String :=
  let op := (getStr params "operation").getD ""
  if op != "award" && op != "deduct" then
    some ("reward_points: operation must be \x27award\x27 or \x27deduct\x27, got "
      ++ goQuote op)
  else if (List.lookup "points" params).isNone &&
      (List.lookup "points_formula" params).isNone then
    some "reward_points: one of \x27points\x27 or \x27points_formula\x27 is required"
  else none

/-- Go type name of an expression, for the `%T` verb in the formula
evaluator's error message. -/
def goExprTypeName : Expr → String
  | .binary _ _ _ => "*condition.BinaryExpr"
  | .not _ => "*condition.NotExpr"
  | .comparison _ _ _ => "*condition.ComparisonExpr"

/-- `%v` of a `[]string` path (`[a b]`). -/
def goVPath (path : List String) : String :=
  "[" ++ intercalateGo " " path ++ "]"

/-- `resolveNumericOperand` from the points action: a literal must be
numeric; a field path is resolved against the event context and must
resolve to a numeric value. -/
def resolveNumericOperand (o : Operand) (ctx : EvalCtx) : Except String ℚ :=
  match o with
  | .literal v =>
    match toFloat64V v with
    | some f => .ok f
    | none => .error ("literal " ++ goV v ++ " is not numeric")
  | .field path =>
    match ctxResolve ctx.event path with
    | none => .error ("field " ++ goVPath path ++ " not found")
    | some v =>
      match toFloat64V v with
      | some f => .ok f
      | none =>
        .error ("field " ++ goVPath path ++ " value " ++ goV v ++ " is not numeric")

/-- `evalNumericExpr` from the points action: the formula evaluator.  It
handles exactly a `ComparisonExpr` whose operator is arithmetic
(`*`, `/`, `+`, `-`); division by zero is an error; any other operator or
node kind is an error. -/
def evalNumericExpr (e : Expr) (ctx : EvalCtx) : Except String ℚ :=
  match e with
  | .comparison l op rt =>
    match resolveNumericOperand l ctx with
    | .error msg => .error msg
    | .ok left =>
      match resolveNumericOperand rt ctx with
      | .error msg => .error msg
      | .ok right =>
        match op with
        | "*" => .ok (left * right)
        | "/" =>
          if right = 0 then .error "division by zero in points_formula"
          else .ok (left / right)
        | "+" => .ok (left + right)
        | "-" => .ok (left - right)
        | _ => .error ("unsupported operator " ++ goQuote op ++ " in points_formula")
  | _ =>
    .error ("unsupported expression type " ++ goExprTypeName e ++
      " in points_formula")

/-- The fixed-`points` fallback branch of `resolvePoints`. -/
def resolvePointsFixed (params : List (String × Value)) : Except String ℚ :=
  match (List.lookup "points" params).bind toFloat64V with
  | some pts => .ok pts
  | none => .error "cannot resolve points value"

/-- `resolvePoints`: the point value comes from the `points_formula` param
(parsed and evaluated against the event context) when it is a non-empty
string, else from the fixed `points` param. -/
def resolvePoints (params : List (String × Value)) (ctx : EvalCtx) :
    Except String ℚ :=
  match getStr params "points_formula" with
  | some formula =>
    if formula != "" then
      match ParseE formula with
      | .error e => .error ("points_formula parse error: " ++ e)
      | .ok ast =>
        match evalNumericExpr ast ctx with
        | .error e => .error ("points_formula eval error: " ++ e)
        | .ok val => .ok val
    else resolvePointsFixed params
  | none => resolvePointsFixed params

/-- Overwrite-or-append update of an association list (Go map store). -/
def assocPut (l : List (String × Value)) (k : String) (v : Value) :
    List (String × Value) :=
  if (List.lookup k l).isSome then
    l.map (fun kv => if kv.1 == k then (k, v) else kv)
  else l ++ [(k, v)]

/-- `RewardPointsAction.Execute`: resolve the amount, round to 2 decimal
places, compose the message, record the output into the context's results
accumulator, and return success; on a resolution error return the failed
result together with the error (Go returns both).  (Storing into a nil
results map would panic in Go; the engine always allocates it.) -/
def rewardPointsExecute (actionID : String) (params : List (String × Value))
    (ctx : EvalCtx) : ActionResult × Option String × EvalCtx :=
  let op := (getStr params "operation").getD ""
  let reason := (getStr params "reason").getD ""
  match resolvePoints params ctx with
  | .error e =>
    (⟨actionID, "reward_points", false, e⟩, some e, ctx)
  | .ok pts =>
    let pts := goRound (pts * 100) / 100
    let msg := capitalizeGo op ++ "ed " ++ fmtF0 pts ++ " points to " ++
      ctx.event.actorID ++ (if reason != "" then " — " ++ reason else "")
    let results' := (ctx.results).map (fun rs => assocPut rs actionID
      (.map [("operation", .str op), ("points", .num pts),
             ("actor_id", .str ctx.event.actorID)]))
    (⟨actionID, "reward_points", true, msg⟩, none, { ctx with results := results' })

/-- `Executor.Execute` dispatch. -/
def executorExecute (e : Executor) (actionID : String)
    (params : List (String × Value)) (ctx : EvalCtx) :
    ActionResult × Option String × EvalCtx :=
  match e with
  | .rewardPoints => rewardPointsExecute actionID params ctx

/-! ## Engine (`internal/engine/engine.go`) -/

/-- `engine.EventResult`.  `durationMs` is wall-clock data outside the
model (always 0 here); `error` is the Go string field, whose zero value is
the empty string. -/
structure EventResult where
  eventID : String
  durationMs : Int
  scenariosMatched : List String
  actionsExecuted : List ActionResult
  error : String
deriving Repr

/-- `Engine.runAction`: look up the executor (a failed lookup yields a
failed `ActionResult` carrying the lookup error); execute; on an execution
error return the executor's result when it supplied one, else a synthesized
failed result. -/
def runAction (reg : Registry) (m : ActionMatch) (ctx : EvalCtx) :
    ActionResult × EvalCtx :=
  match m.node with
  | .action id ty params =>
    match registryGet reg ty with
    | .error e => (⟨id, ty, false, e⟩, ctx)
    | .ok exec =>
      let (res, _, ctx') := executorExecute exec id params ctx
      (res, ctx')
  | other =>
    -- `ActionMatch.Node` is always an `*ActionNode`; a non-action node
    -- would make Go's method calls resolve to id/type of that node with
    -- no params.  Unreachable for DFS-produced matches.
    (⟨other.nodeID, "", false, "not an action node"⟩, ctx)

/-- The action-execution loop of `Engine.processEvent`: execute each
matched action in document order, sequentially, threading the shared
evaluation context, and record every result. -/
def runActions (reg : Registry) : List ActionMatch → EvalCtx →
    List ActionResult × EvalCtx
  | [], ctx => ([], ctx)
  | m :: rest, ctx =>
    let a := runAction reg m ctx
    let r := runActions reg rest a.2
    (a.1 :: r.1, r.2)

/-- `Engine.processEvent`: evaluate the DAG (the returned first evaluation
error is discarded by the source: `matches, scenariosMatched, _ :=`), then
execute the matched actions synchronously within the worker, against a
fresh evaluation context. -/
def processEvent (reg : Registry) (g : Graph) (ev : Event) : EventResult :=
  let out := evaluate g ev
  let actionsExecuted :=
    if out.matchedActions.length > 0 then
      (runActions reg out.matchedActions ⟨ev, some [], []⟩).1
    else []
  ⟨ev.id, 0, out.scenariosMatched, actionsExecuted, ""⟩

/-! ## Configuration (`internal/config`) and the graph builder
(`internal/dag/builder.go`) -/

/-- `config.EngineConf`.  A field absent from the YAML document decodes to
its Go zero value (0 for the ints, `false` for `fail_open`). -/
structure EngineConf where
  eventWorkers : Int
  actionWorkers : Int
  queueDepth : Int
  eventTimeoutMs : Int
  failOpen : Bool
deriving Repr, DecidableEq

/-- The defaulting applied by `Loader.load` after unmarshalling: each zero
worker/queue/timeout setting is replaced by its default.  (No default is
applied to `fail_open`.) -/
def applyDefaults (c : EngineConf) : EngineConf :=
  let c := if c.eventWorkers = 0 then { c with eventWorkers := 32 } else c
  let c := if c.actionWorkers = 0 then { c with actionWorkers := 16 } else c
  let c := if c.queueDepth = 0 then { c with queueDepth := 10000 } else c
  let c := if c.eventTimeoutMs = 0 then { c with eventTimeoutMs := 5000 } else c
  c

/-- A child of a scenario or condition (`config.NodeRef`): in Go a pair of
optional pointers with "exactly one set" enforced by the validator;
embedded as the sum the builder's switch distinguishes. -/
inductive NodeRef where
  | condition (id : String) (expression : String) (children : List NodeRef)
  | action (id : String) (type : String) (params : List (String × Value))
deriving Repr

/-- `config.Scenario`. -/
structure Scenario where
  id : String
  description : String
  enabled : Bool
  eventTypes : List String
  sources : List String
  children : List NodeRef
deriving Repr

/-- `config.RuleConfig`. -/
structure RuleConfig where
  version : String
  engine : EngineConf
  scenarios : List Scenario
deriving Repr

/-- `buildChildren` from `internal/dag/builder.go`: a condition child has
its expression parsed here (a parse error fails the build, citing the
condition id and expression), becomes a condition node with an edge from
its parent, and is recursed into; an action child becomes a leaf action
node with an edge from its parent.  No executor validate hook is invoked
anywhere (the builder has no access to the registry). -/
def buildChildren (parentID : String) : Graph → List NodeRef → Except String Graph
  | g, [] => .ok g
  | g, ref :: rest =>
    match ref with
    | .condition id expression children =>
      match ParseE expression with
      | .error e =>
        .error ("condition " ++ id ++ ": parse " ++ goQuote expression ++ ": " ++ e)
      | .ok ast =>
        let g := (g.addNode (.condition id ast)).addEdge parentID (.condition id ast)
        match buildChildren id g children with
        | .error e => .error ("condition " ++ id ++ ": " ++ e)
        | .ok g' => buildChildren parentID g' rest
    | .action id ty params =>
      let g := (g.addNode (.action id ty params)).addEdge parentID (.action id ty params)
      buildChildren parentID g rest

/-- The scenario loop of `dag.Build`: skip disabled scenarios; create a
scenario node with normalized event types and sources; build its children. -/
def buildScenarios : Graph → List Scenario → Except String Graph
  | g, [] => .ok g
  | g, sc :: rest =>
    if !sc.enabled then buildScenarios g rest
    else
      let g := g.addNode (newScenarioNode sc.id sc.eventTypes sc.sources)
      match buildChildren sc.id g sc.children with
      | .error e => .error ("scenario " ++ sc.id ++ ": " ++ e)
      | .ok g' => buildScenarios g' rest

/-- `dag.Build`: construct the DAG from a validated `RuleConfig`, compiling
all expressions at build time. -/
def Build (cfg : RuleConfig) : Except String Graph :=
  buildScenarios newGraph cfg.scenarios

/-! ## Concrete instances used by the claim theorems and witnesses -/

/-- Params rejected by the points action's validate hook (`operation` is
neither `award` nor `deduct`). -/
def c1BadParams : List (String × Value) :=
  [("operation", .str "explode"), ("points", .num 1)]

/-- A rule document whose only action child carries `c1BadParams`. -/
def c1BadRules : RuleConfig :=
  ⟨"v1", ⟨0, 0, 0, 0, false⟩,
   [⟨"s1", "", true, ["t"], [], [.action "a1" "reward_points" c1BadParams]⟩]⟩

/-- The graph the builder produces from `c1BadRules`: the invalidly
parameterized action node is created and wired up. -/
def c1BadGraph : Graph :=
  ⟨[("s1", .scenario "s1" ["t"] []),
    ("a1", .action "a1" "reward_points" c1BadParams)],
   [("s1", .action "a1" "reward_points" c1BadParams)],
   [.scenario "s1" ["t"] []]⟩

/-- A condition whose field path is missing from the test event's payload. -/
def c2BadCond : Node :=
  .condition "c_bad" (.comparison (.field ["payload", "missing"]) ">"
    (.literal (.num 1)))

/-- A fixed-points action node (always executable). -/
def c2Action : Node :=
  .action "a_ok" "reward_points" [("operation", .str "award"), ("points", .num 5)]

/-- A graph with one scenario whose children are the failing condition and,
as a sibling branch, the action node. -/
def c2Graph : Graph :=
  ((((newGraph.addNode (newScenarioNode "s" ["t"] [])).addNode c2BadCond).addNode
    c2Action).addEdge "s" c2BadCond).addEdge "s" c2Action

/-- An event accepted by scenario `s` whose payload is empty. -/
def c2Event : Event := ⟨"e2", "t", "", "user_1", some [], none⟩

/-- An action whose `points_formula` divides by zero. -/
def c7DivAction : Node :=
  .action "a_div" "reward_points"
    [("operation", .str "award"), ("points_formula", .str "1 / 0")]

/-- A graph matching both the dividing action and a healthy sibling action. -/
def c7Graph : Graph :=
  ((((newGraph.addNode (newScenarioNode "s" ["t"] [])).addNode c7DivAction).addNode
    c2Action).addEdge "s" c7DivAction).addEdge "s" c2Action

/-- An event accepted by `c7Graph`'s scenario. -/
def c7Event : Event := ⟨"e7", "t", "", "user_42", some [], none⟩

/-- An action node whose type key has no registered executor. -/
def c10Action : Node := .action "a_n" "notify" [("channel", .str "mail")]

/-- A graph matching the unregistered-type action and a healthy sibling. -/
def c10Graph : Graph :=
  ((((newGraph.addNode (newScenarioNode "s" ["t"] [])).addNode c10Action).addNode
    c2Action).addEdge "s" c10Action).addEdge "s" c2Action

/-- A counting resolver: the state is the number of `Resolve` calls made
(the spec's "observing resolver"). -/
def countingResolver : ResolverS Nat :=
  ⟨fun n _ => (some (.num 1), n + 1)⟩

/-- A comparison that evaluates to false without resolving any field. -/
def c5FalseExpr : Expr :=
  .comparison (.literal (.str "a")) "==" (.literal (.str "b"))

/-- A comparison that evaluates to true without resolving any field. -/
def c5TrueExpr : Expr :=
  .comparison (.literal (.str "a")) "==" (.literal (.str "a"))

/-- A comparison whose evaluation resolves a field (observable through the
counting resolver's state). -/
def c5FieldExpr : Expr :=
  .comparison (.field ["payload", "x"]) "==" (.literal (.num 1))

/-- Is the parsed expression an arithmetic `Comparison` root (the only
node kind the formula evaluator computes a value for)? -/
def isArithRoot : Expr → Bool
  | .comparison _ op _ => op == "*" || op == "/" || op == "+" || op == "-"
  | _ => false

/-- An evaluation context over an empty-payload event, for the formula
evaluator counterexamples. -/
def c6Ctx : EvalCtx := ⟨⟨"e6", "t", "", "u", some [], none⟩, some [], []⟩

/-- The default used with `List.getD` when indexing executed-action lists
in theorem statements (never actually selected under the stated bounds). -/
def arDefault : ActionResult := ⟨"", "", true, ""⟩

/-- A graph with one scenario and one action child, for the
scenarios-matched witness. -/
def c4Graph : Graph :=
  ((newGraph.addNode (newScenarioNode "s" ["t"] [])).addNode c2Action).addEdge
    "s" c2Action

/-- An event accepted by `c4Graph`'s scenario. -/
def c4Event : Event := ⟨"e4", "t", "", "u", some [], none⟩

/-! ## Theorems -/

/-- The inlined `binary` case of `evaluateS` is exactly `evalBinaryS`. -/
theorem evaluateS_binary {σ : Type} (r : ResolverS σ) (op : String)
    (l rt : Expr) (s : σ) :
    evaluateS r (.binary op l rt) s = evalBinaryS r op l rt s := by
  simp [evaluateS, evalBinaryS]

/-- C1: the graph builder creates action nodes without ever invoking the
registered executor's validate hook — `Build` has no access to the
registry — so a build over params the points executor rejects
(`operation: "explode"`) succeeds and registers the action node, while
`RewardPointsAction.Validate` on the same raw params returns an error.
This contradicts the spec and the source's own documentation, which state
that validation runs at build time and a validation failure fails the
build. -/
theorem c1_build_never_validates :
    Build c1BadRules = .ok c1BadGraph ∧
    rewardPointsValidate c1BadParams =
      some ("reward_points: operation must be \x27award\x27 or \x27deduct\x27, got "
        ++ goQuote "explode") := by
  constructor
  · simp [Build, buildScenarios, buildChildren, c1BadRules, c1BadGraph, newGraph,
      Graph.addNode, Graph.addEdge, newScenarioNode, toLowerGo, Node.nodeID,
      charToLowerGo, c1BadParams]
  · rfl

/-- C2: `dag.Evaluate` records the missing-field error of condition
`c_bad` and surfaces it as its first-error return value, the affected
branch is pruned while the sibling action branch still matches — but
`Engine.processEvent` discards that return value (`matches,
scenariosMatched, _ :=`), so the `EventResult`'s `error` field stays
empty instead of carrying the first evaluation error. -/
theorem c2_event_result_error_dropped :
    (evaluate c2Graph c2Event).error =
      some ("node c_bad: " ++ "field " ++ goQuote "payload.missing" ++ " not found") ∧
    (evaluate c2Graph c2Event).matchedActions =
      [⟨"s", c2Action⟩] ∧
    (evaluate c2Graph c2Event).scenariosMatched = ["s"] ∧
    (processEvent stdRegistry c2Graph c2Event).error = "" := by
  refine ⟨?_, ?_, ?_, ?_⟩ <;>
    simp [evaluate, evalRoots, dfs, dfsLoop, c2Graph, c2Event, nodeEvaluate,
      newScenarioNode, toLowerGo, charToLowerGo, Graph.addNode, Graph.addEdge,
      newGraph, Graph.childrenOf, Node.nodeID, c2BadCond, c2Action, condEvaluate,
      evaluateS, evalComparisonS, resolveOperandS, evResolver, ctxResolve,
      resolveMap, compareV, EvalCtx.addErr, goQuote, intercalateGo, processEvent]

/-- C8 (counterexample): on an engine block entirely absent from the
document (all fields at their Go zero values), the loader's defaulting
yields `fail_open = false`, not the claimed default `true`; only the four
numeric settings receive defaults. -/
theorem c8_fail_open_not_defaulted :
    applyDefaults ⟨0, 0, 0, 0, false⟩ = ⟨32, 16, 10000, 5000, false⟩ := by
  rfl

/-- C8 (amended): each of the four numeric engine settings absent from the
document (decoded to zero) is given its default — event_workers=32,
action_workers=16, queue_depth=10000, event_timeout_ms=5000 — while
`fail_open` receives no default and keeps its decoded value (false when
absent). -/
theorem c8_defaults (c : EngineConf) :
    (c.eventWorkers = 0 → (applyDefaults c).eventWorkers = 32) ∧
    (c.actionWorkers = 0 → (applyDefaults c).actionWorkers = 16) ∧
    (c.queueDepth = 0 → (applyDefaults c).queueDepth = 10000) ∧
    (c.eventTimeoutMs = 0 → (applyDefaults c).eventTimeoutMs = 5000) ∧
    (applyDefaults c).failOpen = c.failOpen := by
  rcases c with ⟨ew, aw, qd, et, fo⟩
  by_cases h1 : ew = (0 : Int) <;> by_cases h2 : aw = (0 : Int) <;>
    by_cases h3 : qd = (0 : Int) <;> by_cases h4 : et = (0 : Int) <;>
    simp [applyDefaults, h1, h2, h3, h4]

/-- C8 witness: the amended defaulting theorem applied to the all-absent
engine block (with `fail_open: true` decoded, to see it preserved). -/
theorem c8_defaults_witness :
    (applyDefaults ⟨0, 0, 0, 0, true⟩).eventWorkers = 32 ∧
    (applyDefaults ⟨0, 0, 0, 0, true⟩).actionWorkers = 16 ∧
    (applyDefaults ⟨0, 0, 0, 0, true⟩).queueDepth = 10000 ∧
    (applyDefaults ⟨0, 0, 0, 0, true⟩).eventTimeoutMs = 5000 ∧
    (applyDefaults ⟨0, 0, 0, 0, true⟩).failOpen = true :=
  have h := c8_defaults ⟨0, 0, 0, 0, true⟩
  ⟨h.1 rfl, h.2.1 rfl, h.2.2.1 rfl, h.2.2.2.1 rfl, h.2.2.2.2⟩

/-- C9: `equal` is not commutative across boolean and non-boolean
operands: with a boolean on the left and a non-numeric non-boolean on the
right it returns false, while with a string on the left and a boolean on
the right it compares the `%v` string representations — so
`"true" == true` holds but `true == "true"` does not. -/
theorem c9_equal_bool_asymmetry :
    (∀ (b : Bool) (r : Value), toFloat64V r = none → isBoolV r = false →
      equalV (.bool b) r = false) ∧
    (∀ (s : String) (b : Bool),
      equalV (.str s) (.bool b) = (s == (if b then "true" else "false"))) ∧
    equalV (.str "true") (.bool true) = true ∧
    equalV (.bool true) (.str "true") = false := by
  refine ⟨?_, ?_, ?_, ?_⟩
  · intro b r h1 h2
    cases r <;> simp_all [equalV, toFloat64V, isBoolV]
  · intro s b
    cases b <;> simp [equalV, toFloat64V, goV]
  · rfl
  · rfl

/-- C9 witness: the asymmetry theorem applied at `true == "x"`. -/
theorem c9_equal_bool_asymmetry_witness :
    equalV (.bool true) (.str "x") = false :=
  c9_equal_bool_asymmetry.1 true (.str "x") rfl rfl

/-- C5: short-circuit law over an arbitrary (possibly stateful, hence
observing) resolver: if `A` evaluates to false in state `s` ending in
state `s₁`, then `A AND B` evaluates to false from `s` ending in the same
state `s₁` — so no operand of `B` was resolved and `B` was not evaluated;
dually, if `A` evaluates to true, `A OR B` evaluates to true with the same
final state. -/
theorem c5_short_circuit {σ : Type} (r : ResolverS σ) (A B : Expr) (s s₁ : σ) :
    (evaluateS r A s = (.ok false, s₁) →
      evaluateS r (.binary "AND" A B) s = (.ok false, s₁)) ∧
    (evaluateS r A s = (.ok true, s₁) →
      evaluateS r (.binary "OR" A B) s = (.ok true, s₁)) := by
  constructor <;> intro h <;> rw [evaluateS_binary] <;> unfold evalBinaryS <;>
    rw [h] <;> rfl

/-- C5 witness: under the counting resolver, `1 == 2 AND <field test>`
evaluates to false and `1 == 1 OR <field test>` to true, in both cases
leaving the resolve-call counter at 0: the right operand was never
evaluated. -/
theorem c5_short_circuit_witness :
    evaluateS countingResolver (.binary "AND" c5FalseExpr c5FieldExpr) 0 =
      (.ok false, 0) ∧
    evaluateS countingResolver (.binary "OR" c5TrueExpr c5FieldExpr) 0 =
      (.ok true, 0) :=
  ⟨(c5_short_circuit countingResolver c5FalseExpr c5FieldExpr 0 0).1 (by rfl),
   (c5_short_circuit countingResolver c5TrueExpr c5FieldExpr 0 0).2 (by rfl)⟩

/-- C6 (counterexample): a single `Comparison` node with the arithmetic
operator `/` on which the formula evaluator does not return a
floating-point value: `1 / 0` is a division-by-zero error. -/
theorem c6_arith_root_can_error :
    evalNumericExpr (.comparison (.literal (.num 1)) "/" (.literal (.num 0)))
      c6Ctx = .error "division by zero in points_formula" := by
  rfl

/-- C6 (amended): applied to any node that is not a `Comparison` with an
arithmetic operator, the formula evaluator returns an error; applied to an
arithmetic `Comparison` it returns a floating-point value provided both
operands resolve to numeric values and a division's divisor is nonzero
(and an error otherwise, per the counterexample).  Arithmetic `Comparison`
nodes cannot nest: operands are only literals and field paths. -/
theorem c6_formula_evaluator (ctx : EvalCtx) :
    (∀ e : Expr, isArithRoot e = false →
      ∃ msg, evalNumericExpr e ctx = .error msg) ∧
    (∀ (l : Operand) (op : String) (rt : Operand) (x y : ℚ),
      (op = "*" ∨ op = "/" ∨ op = "+" ∨ op = "-") →
      resolveNumericOperand l ctx = .ok x →
      resolveNumericOperand rt ctx = .ok y →
      (op = "/" → y ≠ 0) →
      ∃ v : ℚ, evalNumericExpr (.comparison l op rt) ctx = .ok v) := by
  constructor
  · intro e he
    match e with
    | .binary op l rt => exact ⟨_, rfl⟩
    | .not e => exact ⟨_, rfl⟩
    | .comparison l op rt =>
      simp only [isArithRoot, Bool.or_eq_false_iff, beq_eq_false_iff_ne] at he
      cases hl : resolveNumericOperand l ctx with
      | error msg => exact ⟨msg, by simp [evalNumericExpr, hl]⟩
      | ok x =>
        cases hr : resolveNumericOperand rt ctx with
        | error msg => exact ⟨msg, by simp [evalNumericExpr, hl, hr]⟩
        | ok y =>
          refine ⟨"unsupported operator " ++ goQuote op ++ " in points_formula", ?_⟩
          simp only [evalNumericExpr, hl, hr]
          split <;> first | rfl | simp_all
  · intro l op rt x y hop hl hr hdiv
    simp only [evalNumericExpr, hl, hr]
    rcases hop with h | h | h | h <;> subst h
    · exact ⟨x * y, rfl⟩
    · refine ⟨x / y, ?_⟩
      simp [if_neg (hdiv rfl)]
    · exact ⟨x + y, rfl⟩
    · exact ⟨x - y, rfl⟩

/-- C6 witness: the amended theorem applied to a `Not` node (error) and to
`2 + 3` (a numeric value). -/
theorem c6_formula_evaluator_witness :
    (∃ msg, evalNumericExpr (.not (.comparison (.literal (.num 1)) "=="
      (.literal (.num 1)))) c6Ctx = .error msg) ∧
    (∃ v : ℚ, evalNumericExpr (.comparison (.literal (.num 2)) "+"
      (.literal (.num 3))) c6Ctx = .ok v) :=
  ⟨(c6_formula_evaluator c6Ctx).1 _ rfl,
   (c6_formula_evaluator c6Ctx).2 (.literal (.num 2)) "+" (.literal (.num 3))
     2 3 (Or.inr (Or.inr (Or.inl rfl))) rfl rfl
     (fun h => absurd h (by decide))⟩

/-- C3: a scenario node built from raw event types and sources passes an
event exactly when the event's type matches an accepted event type and the
accepted-sources set is empty or the event's source matches one of them,
both comparisons lowercasing both the stored and the event-side strings. -/
theorem c3_scenario_filter (ctx : EvalCtx) (id : String) (ets srcs : List String) :
    nodeEvaluate ctx (newScenarioNode id ets srcs) = .ok true ↔
      ((∃ t ∈ ets, toLowerGo t = toLowerGo ctx.event.type) ∧
       (srcs = [] ∨ ∃ s ∈ srcs, toLowerGo s = toLowerGo ctx.event.source)) := by
  simp only [nodeEvaluate, newScenarioNode]
  split_ifs with h1 h2 <;> simp_all [List.length_pos]
  tauto

/-- Definitional unfolding of `dfsLoop` on a non-empty child list (stated
explicitly because the automatic equation generator rejects the nested
match). -/
theorem dfsLoop_cons (g : Graph)
    (dfsF : EvalCtx → String → String →
      List ActionMatch × EvalCtx × Option String)
    (ctx : EvalCtx) (scenarioID : String) (child : Node) (rest : List Node) :
    dfsLoop g dfsF ctx scenarioID (child :: rest) =
      match nodeEvaluate ctx child with
      | .error e =>
        dfsLoop g dfsF (ctx.addErr ("node " ++ child.nodeID ++ ": " ++ e))
          scenarioID rest
      | .ok false => dfsLoop g dfsF ctx scenarioID rest
      | .ok true =>
        match child with
        | .action id ty ps =>
          let r := dfsLoop g dfsF ctx scenarioID rest
          (⟨scenarioID, .action id ty ps⟩ :: r.1, r.2.1, r.2.2)
        | .scenario id ets ss =>
          let d := dfsF ctx id scenarioID
          match d.2.2 with
          | some e => ([], d.2.1, some e)
          | none =>
            let r := dfsLoop g dfsF d.2.1 scenarioID rest
            (d.1 ++ r.1, r.2.1, r.2.2)
        | .condition id ex =>
          let d := dfsF ctx id scenarioID
          match d.2.2 with
          | some e => ([], d.2.1, some e)
          | none =>
            let r := dfsLoop g dfsF d.2.1 scenarioID rest
            (d.1 ++ r.1, r.2.1, r.2.2) := rfl

/-- Every action match produced by the DFS child loop is tagged with the
scenario id the traversal started from, provided the abstracted recursive
entry point has the same property. -/
theorem dfsLoop_tag (g : Graph)
    (dfsF : EvalCtx → String → String →
      List ActionMatch × EvalCtx × Option String)
    (hF : ∀ (ctx : EvalCtx) (pid sid : String) (m : ActionMatch),
      m ∈ (dfsF ctx pid sid).1 → m.scenarioID = sid) :
    ∀ (children : List Node) (ctx : EvalCtx) (sid : String)
      (m : ActionMatch), m ∈ (dfsLoop g dfsF ctx sid children).1 →
      m.scenarioID = sid := by
  intro children
  induction children with
  | nil => intro ctx sid m hm; simp [dfsLoop] at hm
  | cons child rest ih =>
    intro ctx sid m hm
    rw [dfsLoop_cons] at hm
    rcases hne : nodeEvaluate ctx child with e | b
    · simp only [hne] at hm
      exact ih _ _ _ hm
    · cases b
      · simp only [hne] at hm
        exact ih _ _ _ hm
      · simp only [hne] at hm
        cases child with
        | action id ty ps =>
          simp only [List.mem_cons] at hm
          rcases hm with h | h
          · rw [h]
          · exact ih _ _ _ h
        | scenario id ets ss =>
          rcases hdd : (dfsF ctx id sid).2.2 with _ | e
          · simp only [hdd, List.mem_append] at hm
            rcases hm with h | h
            · exact hF _ _ _ _ h
            · exact ih _ _ _ h
          · simp only [hdd] at hm
            simp at hm
        | condition id ex =>
          rcases hdd : (dfsF ctx id sid).2.2 with _ | e
          · simp only [hdd, List.mem_append] at hm
            rcases hm with h | h
            · exact hF _ _ _ _ h
            · exact ih _ _ _ h
          · simp only [hdd] at hm
            simp at hm

/-- Every action match produced by `dfs` is tagged with the scenario id. -/
theorem dfs_tag (g : Graph) :
    ∀ (fuel : Nat) (ctx : EvalCtx) (pid sid : String) (m : ActionMatch),
      m ∈ (dfs g fuel ctx pid sid).1 → m.scenarioID = sid := by
  intro fuel
  induction fuel with
  | zero => intro ctx pid sid m hm; simp [dfs] at hm
  | succ f ih =>
    intro ctx pid sid m hm
    rw [dfs] at hm
    exact dfsLoop_tag g (dfs g f) (fun ctx pid sid m h => ih ctx pid sid m h)
      _ _ _ _ hm

/-- A scenario id is emitted by the root loop only when its DFS produced
at least one action match; that match is tagged with the id and is in the
returned match list. -/
theorem evalRoots_matched (g : Graph) (fuel : Nat) :
    ∀ (roots : List Node) (ctx : EvalCtx) (sid : String),
      sid ∈ (evalRoots g fuel roots ctx).2.1 →
      ∃ m ∈ (evalRoots g fuel roots ctx).1, m.scenarioID = sid := by
  intro roots
  induction roots with
  | nil => intro ctx sid hs; simp [evalRoots] at hs
  | cons root rest ih =>
    intro ctx sid hs
    rw [evalRoots] at hs ⊢
    rcases hne : nodeEvaluate ctx root with e | b
    · simp only [hne] at hs ⊢
      exact ih _ _ hs
    · cases b
      · simp only [hne] at hs ⊢
        exact ih _ _ hs
      · simp only [hne] at hs ⊢
        rcases hdd : (dfs g fuel ctx root.nodeID root.nodeID).2.2 with _ | e
        · simp only [hdd] at hs ⊢
          by_cases hlen : (dfs g fuel ctx root.nodeID root.nodeID).1.length > 0
          · simp only [if_pos hlen] at hs ⊢
            simp only [List.mem_cons] at hs
            rcases hs with h | h
            · subst h
              obtain ⟨m, hmem⟩ := List.exists_mem_of_length_pos hlen
              exact ⟨m, by simp [List.mem_append, hmem],
                dfs_tag g fuel ctx root.nodeID root.nodeID m hmem⟩
            · obtain ⟨m, hmem, htag⟩ := ih _ _ h
              exact ⟨m, by simp only [List.mem_append]; right; exact hmem, htag⟩
          · simp only [if_neg hlen] at hs ⊢
            exact ih _ _ hs
        · simp only [hdd] at hs ⊢
          exact ih _ _ hs

/-- C4: a scenario id appears in the `scenarios_matched` output of
`dag.Evaluate` only if at least one action match tagged with that scenario
was reached during its DFS and is present in the returned match list. -/
theorem c4_scenarios_matched_need_action (g : Graph) (ev : Event) (sid : String)
    (h : sid ∈ (evaluate g ev).scenariosMatched) :
    ∃ m ∈ (evaluate g ev).matchedActions, m.scenarioID = sid := by
  rcases he : evalRoots g (g.edges.length + 1) g.roots ⟨ev, some [], []⟩
    with ⟨ms, scs, ctx'⟩
  have hglob := evalRoots_matched g (g.edges.length + 1) g.roots
    ⟨ev, some [], []⟩ sid
  rw [he] at hglob
  simp only [evaluate, he] at h ⊢
  exact hglob h

/-- C4 witness: the theorem applied to a concrete graph whose scenario
`s` matched. -/
theorem c4_scenarios_matched_need_action_witness :
    ∃ m ∈ (evaluate c4Graph c4Event).matchedActions, m.scenarioID = "s" :=
  c4_scenarios_matched_need_action c4Graph c4Event "s" (by decide)

/-- `runAction` leaves the event of the evaluation context unchanged (the
points executor only updates the results accumulator). -/
theorem runAction_event (reg : Registry) (m : ActionMatch) (ctx : EvalCtx) :
    (runAction reg m ctx).2.event = ctx.event := by
  rcases m with ⟨sid, node⟩
  cases node with
  | scenario id ets ss => rfl
  | condition id ex => rfl
  | action id ty ps =>
    rw [runAction]
    rcases hr : registryGet reg ty with e | exec
    · simp [hr]
    · cases exec
      rcases hp : resolvePoints ps ctx with e | pts <;>
        simp [hr, executorExecute, rewardPointsExecute, hp]

/-- `runActions` records exactly one result per matched action. -/
theorem runActions_length (reg : Registry) :
    ∀ (ms : List ActionMatch) (ctx : EvalCtx),
      (runActions reg ms ctx).1.length = ms.length := by
  intro ms
  induction ms with
  | nil => intro ctx; rfl
  | cons m rest ih => intro ctx; simp [runActions, ih]

/-- The i-th recorded result is the result of `runAction` on the i-th
match, run in some intermediate context carrying the same event. -/
theorem runActions_get (reg : Registry) :
    ∀ (ms : List ActionMatch) (ctx : EvalCtx) (i : Nat) (hi : i < ms.length),
      ∃ c : EvalCtx, c.event = ctx.event ∧
        (runActions reg ms ctx).1.getD i arDefault =
          (runAction reg (ms.get ⟨i, hi⟩) c).1 := by
  intro ms
  induction ms with
  | nil => intro ctx i hi; exact absurd hi (by simp)
  | cons m rest ih =>
    intro ctx i hi
    cases i with
    | zero => exact ⟨ctx, rfl, by simp [runActions]⟩
    | succ j =>
      obtain ⟨c, hev, hg⟩ := ih (runAction reg m ctx).2 j
        (by simpa using Nat.lt_of_succ_lt_succ hi)
      refine ⟨c, ?_, ?_⟩
      · rw [hev, runAction_event]
      · simpa [runActions] using hg

/-- `resolveNumericOperand` reads the context only through its event. -/
theorem resolveNumericOperand_event (o : Operand) (c c' : EvalCtx)
    (h : c.event = c'.event) :
    resolveNumericOperand o c = resolveNumericOperand o c' := by
  cases o <;> simp [resolveNumericOperand, h]

/-- `evalNumericExpr` reads the context only through its event. -/
theorem evalNumericExpr_event (e : Expr) (c c' : EvalCtx)
    (h : c.event = c'.event) :
    evalNumericExpr e c = evalNumericExpr e c' := by
  cases e with
  | binary op l rt => rfl
  | not e => rfl
  | comparison l op rt =>
    rw [evalNumericExpr, evalNumericExpr,
      resolveNumericOperand_event l c c' h, resolveNumericOperand_event rt c c' h]

/-- `resolvePoints` reads the context only through its event. -/
theorem resolvePoints_event (p : List (String × Value)) (c c' : EvalCtx)
    (h : c.event = c'.event) : resolvePoints p c = resolvePoints p c' := by
  rw [resolvePoints, resolvePoints]
  rcases getStr p "points_formula" with _ | formula
  · rfl
  · simp only
    split_ifs
    · rcases ParseE formula with e | ast
      · rfl
      · simp only [evalNumericExpr_event ast c c' h]
    · rfl

/-- C10: when a matched action's type key has no registered executor, the
engine records a failed `ActionResult` whose message names the missing
type, and still records one result per matched action (the remaining
actions continue to execute, and the event completes with a result). -/
theorem c10_unregistered_action_type (reg : Registry) (g : Graph) (ev : Event)
    (i : Nat) (hi : i < (evaluate g ev).matchedActions.length)
    (id ty : String) (params : List (String × Value))
    (hnode : ((evaluate g ev).matchedActions.get ⟨i, hi⟩).node = .action id ty params)
    (hreg : List.lookup ty reg = none) :
    (processEvent reg g ev).actionsExecuted.length =
      (evaluate g ev).matchedActions.length ∧
    (processEvent reg g ev).actionsExecuted.getD i arDefault =
      ⟨id, ty, false, "no executor registered for action type " ++ goQuote ty⟩ := by
  have hpos : (evaluate g ev).matchedActions.length > 0 := Nat.lt_of_le_of_lt (Nat.zero_le i) hi
  rw [processEvent]
  simp only [if_pos hpos]
  refine ⟨runActions_length reg _ _, ?_⟩
  obtain ⟨c, hev, hg⟩ := runActions_get reg (evaluate g ev).matchedActions
    ⟨ev, some [], []⟩ i hi
  rw [hg, runAction]
  rcases hm : (evaluate g ev).matchedActions.get ⟨i, hi⟩ with ⟨sid, node⟩
  rw [hm] at hnode
  simp only at hnode
  subst hnode
  simp [registryGet, hreg]

/-- C10 witness: the theorem applied to a graph matching an action of the
unregistered type `notify` alongside a healthy `reward_points` action. -/
theorem c10_unregistered_action_type_witness :
    (processEvent stdRegistry c10Graph c7Event).actionsExecuted.length =
      (evaluate c10Graph c7Event).matchedActions.length ∧
    (processEvent stdRegistry c10Graph c7Event).actionsExecuted.getD 0 arDefault =
      ⟨"a_n", "notify", false,
       "no executor registered for action type " ++ goQuote "notify"⟩ :=
  c10_unregistered_action_type stdRegistry c10Graph c7Event 0 (by decide)
    "a_n" "notify" [("channel", .str "mail")] (by rfl) (by rfl)

/-- C7: when a matched `reward_points` action's `points_formula` divides
by zero, the engine records a failed `ActionResult` carrying the
division-by-zero diagnostic for that action, and still records one result
per matched action (the other matched actions for the event continue to
execute). -/
theorem c7_formula_divide_by_zero (g : Graph) (ev : Event)
    (i : Nat) (hi : i < (evaluate g ev).matchedActions.length)
    (id : String) (params : List (String × Value))
    (hnode : ((evaluate g ev).matchedActions.get ⟨i, hi⟩).node =
      .action id "reward_points" params)
    (hdiv : resolvePoints params ⟨ev, some [], []⟩ =
      .error "points_formula eval error: division by zero in points_formula") :
    (processEvent stdRegistry g ev).actionsExecuted.length =
      (evaluate g ev).matchedActions.length ∧
    (processEvent stdRegistry g ev).actionsExecuted.getD i arDefault =
      ⟨id, "reward_points", false,
       "points_formula eval error: division by zero in points_formula"⟩ := by
  have hpos : (evaluate g ev).matchedActions.length > 0 := Nat.lt_of_le_of_lt (Nat.zero_le i) hi
  rw [processEvent]
  simp only [if_pos hpos]
  refine ⟨runActions_length stdRegistry _ _, ?_⟩
  obtain ⟨c, hev, hg⟩ := runActions_get stdRegistry (evaluate g ev).matchedActions
    ⟨ev, some [], []⟩ i hi
  rw [hg, runAction]
  rcases hm : (evaluate g ev).matchedActions.get ⟨i, hi⟩ with ⟨sid, node⟩
  rw [hm] at hnode
  simp only at hnode
  subst hnode
  have hrp : resolvePoints params c =
      .error "points_formula eval error: division by zero in points_formula" := by
    rw [resolvePoints_event params c ⟨ev, some [], []⟩ hev]
    exact hdiv
  simp [registryGet, stdRegistry, executorExecute, rewardPointsExecute, hrp]

/-- C7 witness: the theorem applied to a graph matching an action whose
formula is `1 / 0` alongside a healthy fixed-points action. -/
theorem c7_formula_divide_by_zero_witness :
    (processEvent stdRegistry c7Graph c7Event).actionsExecuted.length =
      (evaluate c7Graph c7Event).matchedActions.length ∧
    (processEvent stdRegistry c7Graph c7Event).actionsExecuted.getD 0 arDefault =
      ⟨"a_div", "reward_points", false,
       "points_formula eval error: division by zero in points_formula"⟩ :=
  c7_formula_divide_by_zero c7Graph c7Event 0 (by decide) "a_div"
    [("operation", .str "award"), ("points_formula", .str "1 / 0")]
    (by rfl) (by rfl)

end FluxFlow
